import Mathlib

/-!
Verification of the matching/recommendation engine of the AI placement system
(`app/services/matching_service.py`).

The Python code is shallowly embedded as follows.

* Machine floats are modelled as real numbers (`ℝ`) along the embedding /
  similarity / score path, and as exact rationals (`ℚ`) where the code only
  performs exact comparisons and ratios (skill percentages, experience years).
* `numpy` norms use `Real.sqrt`; `round(x, n)` is modelled by `pyRound`
  (round half up at the n-th decimal; Python rounds the nearest binary float
  which agrees except on exact decimal-half ties, which no statement below
  depends on) and `int(x)` by `pyInt` (truncation toward zero).
* Python `str.lower` is modelled by `lower`, a character-wise lowercase map
  (identical to Python on the ASCII strings that skills consist of).
* Python sets are modelled by `Finset`.
* The PostgreSQL / MongoDB collaborators are modelled as explicit read-only
  inputs (`MatchEnv`) for the generation pipeline and as a keyed map
  (`RecDB`) for the `ai_recommendations` table.
* A raised `ValueError` is an `Except.error`; functions that Python lets a
  `ValueError` escape from return `Except`.
-/

namespace Matching

/-- Python `str.lower`, character by character (ASCII-faithful). -/
def lower (s : String) : String := ⟨s.data.map Char.toLower⟩

/-- Dot product of two float vectors, `np.dot(a, b)`. -/
def dotR (a b : List ℝ) : ℝ := (List.zipWith (fun x y => x * y) a b).sum

/-- Sum of squares of a vector; `np.linalg.norm v = Real.sqrt (sumsqR v)`. -/
def sumsqR (v : List ℝ) : ℝ := (v.map (fun x => x * x)).sum

/-- Embeds `cosine_similarity` (matching_service.py lines 262-283): raises
`ValueError` on a length mismatch, returns `0.0` if either magnitude is zero,
otherwise the dot product divided by the product of the magnitudes. -/
noncomputable def cosine_similarity (vec1 vec2 : List ℝ) : Except String ℝ :=
  if vec1.length ≠ vec2.length then .error "Vectors must have same dimension"
  else if Real.sqrt (sumsqR vec1) = 0 ∨ Real.sqrt (sumsqR vec2) = 0 then .ok 0
  else .ok (dotR vec1 vec2 / (Real.sqrt (sumsqR vec1) * Real.sqrt (sumsqR vec2)))

/-- Embeds `compute_skill_match_percentage` (lines 286-308): case-insensitive
set intersection over the required-skill set, `100.0` when no skills are
required. -/
def compute_skill_match_percentage (student_skills required_skills : List String) : ℚ :=
  if required_skills = [] then 100
  else
    let s := (student_skills.map lower).toFinset
    let r := (required_skills.map lower).toFinset
    ((s ∩ r).card : ℚ) / (r.card : ℚ) * 100

/-- Embeds `check_experience_match` (lines 311-326): below the minimum fails,
no maximum always passes, above the maximum a fixed 2-year tolerance applies. -/
def check_experience_match (student_experience : ℚ) (min_required : ℚ)
    (max_required : Option ℚ) : Bool :=
  if student_experience < min_required then false
  else
    match max_required with
    | some m => if m + 2 < student_experience then false else true
    | none => true

/-- Embeds the weighted combination at lines 429-433:
50% embedding similarity, 40% skill match, 10% experience. -/
noncomputable def combined_score (match_score : ℝ) (skill_match_pct : ℝ)
    (experience_ok : Bool) : ℝ :=
  match_score * 0.5 + skill_match_pct / 100 * 0.4 +
    (if experience_ok then (1.0 : ℝ) else 0.5) * 0.1

/-- Python `round(x, n)` (half-up model of float rounding at `n` decimals). -/
noncomputable def pyRound (ndigits : ℕ) (x : ℝ) : ℝ :=
  (round (x * 10 ^ ndigits) : ℤ) / 10 ^ ndigits

/-- Python `int(x)`: truncation toward zero. -/
noncomputable def pyInt (x : ℝ) : ℤ := if 0 ≤ x then ⌊x⌋ else -⌊-x⌋

/-- Sum of squares is nonnegative. -/
theorem sumsqR_nonneg (v : List ℝ) : 0 ≤ sumsqR v := by
  refine List.sum_nonneg ?_
  intro x hx
  obtain ⟨y, -, rfl⟩ := List.mem_map.mp hx
  exact mul_self_nonneg y

/-- The zero-magnitude guard in the code tests exactly for a zero sum of
squares. -/
theorem sqrt_sumsqR_eq_zero_iff (v : List ℝ) : Real.sqrt (sumsqR v) = 0 ↔ sumsqR v = 0 := by
  rw [Real.sqrt_eq_zero (sumsqR_nonneg v)]

/-- Evaluation helper for `compute_skill_match_percentage` on concrete data. -/
theorem skill_pct_eval (cs rs : List String) (c r : ℕ) (h : rs ≠ [])
    (hc : ((cs.map lower).toFinset ∩ (rs.map lower).toFinset).card = c)
    (hr : (rs.map lower).toFinset.card = r) :
    compute_skill_match_percentage cs rs = (c : ℚ) / r * 100 := by
  simp only [compute_skill_match_percentage, if_neg h, hc, hr]

/-- C1: for similarity `s ∈ [-1,1]`, skill percentage `p ∈ [0,100]` and any
experience flag, the combined score computed by `generate_recommendations`
(which feeds the normalized similarity `(s+1)/2` into `combined_score`)
equals `0.5*((s+1)/2) + 0.4*(p/100) + 0.1*(1.0 if e else 0.5)` and lies in
`[0,1]`. -/
theorem C1_combined_score_formula_and_range (s p : ℝ) (e : Bool)
    (hs1 : -1 ≤ s) (hs2 : s ≤ 1) (hp1 : 0 ≤ p) (hp2 : p ≤ 100) :
    combined_score ((s + 1) / 2) p e
        = 0.5 * ((s + 1) / 2) + 0.4 * (p / 100) + 0.1 * (if e then (1.0 : ℝ) else 0.5) ∧
    0 ≤ combined_score ((s + 1) / 2) p e ∧ combined_score ((s + 1) / 2) p e ≤ 1 := by
  unfold combined_score
  refine ⟨by ring, ?_, ?_⟩ <;> cases e <;>
    simp only [Bool.false_eq_true, if_true, if_false] <;> nlinarith

/-- Witness for C1 at `s = 0`, `p = 50`, `e = true`. -/
theorem C1_combined_score_witness :
    combined_score ((0 + 1) / 2) 50 true
        = 0.5 * (((0 : ℝ) + 1) / 2) + 0.4 * (50 / 100) + 0.1 * (if true then (1.0 : ℝ) else 0.5) ∧
    0 ≤ combined_score (((0 : ℝ) + 1) / 2) 50 true ∧
    combined_score (((0 : ℝ) + 1) / 2) 50 true ≤ 1 :=
  C1_combined_score_formula_and_range 0 50 true (by norm_num) (by norm_num)
    (by norm_num) (by norm_num)

/-- C3: skill match is 100 on an empty requirement list, otherwise the
case-insensitive set-intersection ratio scaled to a percentage; the result is
in `[0,100]` and the three worked examples hold. -/
theorem C3_skill_match_percentage_spec (cs rs : List String) :
    (rs = [] → compute_skill_match_percentage cs rs = 100) ∧
    (rs ≠ [] → compute_skill_match_percentage cs rs =
        100 * ((((cs.map lower).toFinset ∩ (rs.map lower).toFinset).card : ℚ)
          / ((rs.map lower).toFinset.card : ℚ))) ∧
    0 ≤ compute_skill_match_percentage cs rs ∧
    compute_skill_match_percentage cs rs ≤ 100 ∧
    compute_skill_match_percentage ["Python", "SQL", "Docker"] ["Python", "SQL", "Docker"] = 100 ∧
    compute_skill_match_percentage ["Python", "JavaScript"] ["Python", "SQL", "Docker", "AWS"] = 25 ∧
    compute_skill_match_percentage ["python"] ["Python"] = 100 := by
  have hrange : 0 ≤ compute_skill_match_percentage cs rs ∧
      compute_skill_match_percentage cs rs ≤ 100 := by
    by_cases h : rs = []
    · simp [compute_skill_match_percentage, h]
    · have hcard : ((cs.map lower).toFinset ∩ (rs.map lower).toFinset).card
          ≤ (rs.map lower).toFinset.card :=
        Finset.card_le_card Finset.inter_subset_right
      have hpos : 0 < (rs.map lower).toFinset.card := by
        rw [Finset.card_pos]
        rcases rs with - | ⟨a, rs⟩
        · exact absurd rfl h
        · exact ⟨lower a, by simp⟩
      simp only [compute_skill_match_percentage, if_neg h]
      constructor
      · positivity
      · have h1 : (((cs.map lower).toFinset ∩ (rs.map lower).toFinset).card : ℚ)
            / ((rs.map lower).toFinset.card : ℚ) ≤ 1 := by
          rw [div_le_one (by exact_mod_cast hpos)]
          exact_mod_cast hcard
        nlinarith
  refine ⟨fun h => by simp [compute_skill_match_percentage, h], fun h => ?_,
    hrange.1, hrange.2, ?_, ?_, ?_⟩
  · simp only [compute_skill_match_percentage, if_neg h]
    ring
  · rw [skill_pct_eval _ _ 3 3 (by decide) (by decide) (by decide)]
    norm_num
  · rw [skill_pct_eval _ _ 1 4 (by decide) (by decide) (by decide)]
    norm_num
  · rw [skill_pct_eval _ _ 1 1 (by decide) (by decide) (by decide)]
    norm_num

/-- Witness for C3: the empty-requirement branch and the general formula at
concrete skill lists. -/
theorem C3_skill_match_percentage_witness :
    compute_skill_match_percentage ["Python"] [] = 100 ∧
    compute_skill_match_percentage ["a"] ["b"] =
        100 * ((((["a"].map lower).toFinset ∩ (["b"].map lower).toFinset).card : ℚ)
          / (((["b"] : List String).map lower).toFinset.card : ℚ)) :=
  ⟨(C3_skill_match_percentage_spec ["Python"] []).1 rfl,
   (C3_skill_match_percentage_spec ["a"] ["b"]).2.1 (by decide)⟩

/-- C4: experience match fails below the minimum, always passes with no
maximum, and above that passes exactly up to the maximum plus a 2-year
tolerance; the five worked examples hold. -/
theorem C4_check_experience_match_spec (y mn : ℚ) (mx : Option ℚ) :
    (y < mn → check_experience_match y mn mx = false) ∧
    (mn ≤ y → mx = none → check_experience_match y mn mx = true) ∧
    (∀ m, mn ≤ y → mx = some m → (check_experience_match y mn mx = true ↔ y ≤ m + 2)) ∧
    check_experience_match 2 1 (some 3) = true ∧
    check_experience_match 0.5 2 (some 5) = false ∧
    check_experience_match 5 2 (some 4) = true ∧
    check_experience_match 10 2 (some 4) = false ∧
    check_experience_match 15 5 none = true := by
  refine ⟨fun h => by simp [check_experience_match, h], fun h1 h2 => ?_, fun m h1 h2 => ?_,
    by norm_num [check_experience_match], by norm_num [check_experience_match],
    by norm_num [check_experience_match], by norm_num [check_experience_match],
    by norm_num [check_experience_match]⟩
  · subst h2
    simp [check_experience_match, not_lt.mpr h1]
  · subst h2
    simp only [check_experience_match, if_neg (not_lt.mpr h1)]
    split_ifs with h3
    · simp only [Bool.false_eq_true, false_iff, not_le]
      exact h3
    · simp only [true_iff]
      exact not_lt.mp h3

/-- Witness for C4 at concrete inputs exercising all three branches. -/
theorem C4_check_experience_match_witness :
    check_experience_match 0 1 none = false ∧
    check_experience_match 3 1 none = true ∧
    check_experience_match 5 2 (some 4) = true :=
  ⟨(C4_check_experience_match_spec 0 1 none).1 (by norm_num),
   (C4_check_experience_match_spec 3 1 none).2.1 (by norm_num) rfl,
   ((C4_check_experience_match_spec 5 2 (some 4)).2.2.1 4 (by norm_num) rfl).mpr (by norm_num)⟩

/-- C5: `cosine_similarity` fails (with the dimension-mismatch error) exactly
when the lengths differ; with equal lengths it returns `0.0` when either
vector has zero magnitude (zero sum of squares) and otherwise the dot product
over the product of magnitudes. -/
theorem C5_cosine_similarity_spec (v1 v2 : List ℝ) :
    ((cosine_similarity v1 v2).isOk = false ↔ v1.length ≠ v2.length) ∧
    (v1.length ≠ v2.length →
      cosine_similarity v1 v2 = .error "Vectors must have same dimension") ∧
    (v1.length = v2.length → sumsqR v1 = 0 ∨ sumsqR v2 = 0 →
      cosine_similarity v1 v2 = .ok 0) ∧
    (v1.length = v2.length → sumsqR v1 ≠ 0 → sumsqR v2 ≠ 0 →
      cosine_similarity v1 v2 =
        .ok (dotR v1 v2 / (Real.sqrt (sumsqR v1) * Real.sqrt (sumsqR v2)))) := by
  by_cases hl : v1.length = v2.length
  · have h1 : ¬ v1.length ≠ v2.length := by simpa using hl
    refine ⟨?_, fun h => absurd h h1, fun _ h => ?_, fun _ h2 h3 => ?_⟩
    · simp only [cosine_similarity, if_neg h1]
      constructor
      · intro h
        by_cases hz : Real.sqrt (sumsqR v1) = 0 ∨ Real.sqrt (sumsqR v2) = 0 <;>
          simp [hz, Except.isOk, Except.toBool] at h
      · intro h
        exact absurd hl h
    · have hz : Real.sqrt (sumsqR v1) = 0 ∨ Real.sqrt (sumsqR v2) = 0 := by
        rcases h with h | h
        · exact Or.inl ((sqrt_sumsqR_eq_zero_iff v1).mpr h)
        · exact Or.inr ((sqrt_sumsqR_eq_zero_iff v2).mpr h)
      simp only [cosine_similarity, if_neg h1, if_pos hz]
    · have hz : ¬ (Real.sqrt (sumsqR v1) = 0 ∨ Real.sqrt (sumsqR v2) = 0) := by
        rintro (h | h)
        · exact h2 ((sqrt_sumsqR_eq_zero_iff v1).mp h)
        · exact h3 ((sqrt_sumsqR_eq_zero_iff v2).mp h)
      simp only [cosine_similarity, if_neg h1, if_neg hz]
  · refine ⟨?_, fun _ => ?_, fun h => absurd h hl, fun h => absurd h hl⟩ <;>
      simp [cosine_similarity, if_pos hl, hl, Except.isOk, Except.toBool]

/-- General evaluation helper for the ok branch of `cosine_similarity`. -/
theorem cosine_similarity_ok (v1 v2 : List ℝ) (h : v1.length = v2.length)
    (h1 : sumsqR v1 ≠ 0) (h2 : sumsqR v2 ≠ 0) :
    cosine_similarity v1 v2 =
      .ok (dotR v1 v2 / (Real.sqrt (sumsqR v1) * Real.sqrt (sumsqR v2))) := by
  have hl : ¬ v1.length ≠ v2.length := by simpa using h
  have hz : ¬ (Real.sqrt (sumsqR v1) = 0 ∨ Real.sqrt (sumsqR v2) = 0) := by
    rintro (hx | hx)
    · exact h1 ((sqrt_sumsqR_eq_zero_iff v1).mp hx)
    · exact h2 ((sqrt_sumsqR_eq_zero_iff v2).mp hx)
  simp only [cosine_similarity, if_neg hl, if_neg hz]

/-- Witness for C5: a dimension mismatch errors, a zero vector gives `0.0`,
and nonzero same-length vectors give the normalized dot product. -/
theorem C5_cosine_similarity_witness :
    cosine_similarity [(1 : ℝ)] [1, 2] = .error "Vectors must have same dimension" ∧
    cosine_similarity [(0 : ℝ)] [1] = .ok 0 ∧
    cosine_similarity [(1 : ℝ)] [2] =
        .ok (dotR [1] [2] / (Real.sqrt (sumsqR [1]) * Real.sqrt (sumsqR [2]))) :=
  ⟨(C5_cosine_similarity_spec [(1 : ℝ)] [1, 2]).2.1 (by simp),
   (C5_cosine_similarity_spec [(0 : ℝ)] [1]).2.2.1 (by simp)
     (Or.inl (by norm_num [sumsqR])),
   (C5_cosine_similarity_spec [(1 : ℝ)] [2]).2.2.2 (by simp)
     (by norm_num [sumsqR]) (by norm_num [sumsqR])⟩

/-! ### The feature projector and embedding resolution

`EmbeddingService` (lines 45-255).  The SHA-256 digest used by
`_generate_simple_embedding` is modelled as an explicit function parameter
`digest : String → List ℕ` (32 bytes per word in the real system); every
statement below holds for an arbitrary digest, held fixed across calls
exactly as `hashlib.sha256` is. -/

/-- Fixed embedding dimension (`self.embedding_dim = 256`). -/
def embedding_dim : ℕ := 256

/-- Python `text.lower().strip().split()`: whitespace tokenization with empty
tokens dropped. -/
def pyWords (s : String) : List String :=
  ((lower s).trim.split Char.isWhitespace).filter (fun w => w ≠ "")

/-- Scatter-add of one byte contribution, `embedding[idx] += (b - 128)/128`. -/
noncomputable def addByte (emb : List ℝ) (idx : ℕ) (v : ℝ) : List ℝ :=
  emb.set idx (emb.getD idx 0 + v)

/-- Inner loop of `_generate_simple_embedding` for the word at position `i`:
for `j < min(32, dim)`, add byte `j % len(bytes)` at index `(i*32+j) % dim`. -/
noncomputable def addWord (dim : ℕ) (bytes : List ℕ) (emb : List ℝ) (i : ℕ) : List ℝ :=
  (List.range (min 32 dim)).foldl
    (fun e j => addByte e ((i * 32 + j) % dim) (((bytes.getD (j % bytes.length) 0 : ℕ) - (128 : ℝ)) / 128))
    emb

/-- Embeds `_generate_simple_embedding` (lines 145-172): hash-scatter into a
256-vector, then L2-normalize unless the magnitude is zero. -/
noncomputable def generate_simple_embedding (digest : String → List ℕ) (text : String) :
    List ℝ :=
  let words := pyWords text
  let emb := words.enum.foldl (fun e p => addWord embedding_dim (digest p.2) e p.1)
    (List.replicate embedding_dim 0)
  let magnitude := Real.sqrt (sumsqR emb)
  if 0 < magnitude then emb.map (fun x => x / magnitude) else emb

/-- Parsed resume document (`parsed_data` of a MongoDB parsed-resume doc),
restricted to the fields `_text_to_features` and the scoring loop read. -/
structure StudentParsed where
  skills : List String
  experience_years : ℚ
  education : List (String × String)
  roles : List String

/-- Parsed job-description document (`parsed_data` of a parsed-JD doc). -/
structure JobParsed where
  title : String
  required_skills : List String
  preferred_skills : List String
  min_experience : ℚ
  max_experience : Option ℚ

/-- Embeds `_text_to_features(parsed_data, "student")` (lines 75-93). -/
def text_to_features_student (sp : StudentParsed) : String :=
  let base := ["skills: " ++ String.intercalate ", " sp.skills,
               "experience: " ++ toString sp.experience_years ++ " years"]
  let edus := sp.education.map (fun e => "education: " ++ e.1 ++ " in " ++ e.2)
  let roles := (sp.roles.filter (fun r => r ≠ "")).map (fun r => "role: " ++ r)
  String.intercalate " | " (base ++ edus ++ roles)

/-- Embeds `_text_to_features(parsed_data, "job")` (lines 95-112); note the
code treats a zero `max_experience` as unbounded there (Python truthiness). -/
def text_to_features_job (jp : JobParsed) : String :=
  let base := ["title: " ++ jp.title,
               "required skills: " ++ String.intercalate ", " jp.required_skills]
  let pref := if jp.preferred_skills ≠ []
    then ["preferred skills: " ++ String.intercalate ", " jp.preferred_skills] else []
  let expf :=
    match jp.max_experience with
    | some m =>
        if m ≠ 0 then ["experience: " ++ toString jp.min_experience ++ "-" ++ toString m ++ " years"]
        else ["experience: " ++ toString jp.min_experience ++ "+ years"]
    | none => ["experience: " ++ toString jp.min_experience ++ "+ years"]
  String.intercalate " | " (base ++ pref ++ expf)

/-- One row of `SELECT job_id, title, company_id, min_experience,
max_experience FROM jobs WHERE status = 'open'`. -/
structure JobRow where
  job_id : ℤ
  title : String
  min_experience : ℚ
  max_experience : Option ℚ

/-- Read-only snapshot of the collaborator state one `generate_recommendations`
call observes: the embedding cache and parsed documents for the student, the
open-job rows, and the per-job cache/parsed-document lookups. -/
structure MatchEnv where
  studentCache : Option (List ℝ)
  studentParsed : Option StudentParsed
  jobs : List JobRow
  jobCache : ℤ → Option (List ℝ)
  jobParsed : ℤ → Option JobParsed

/-- Embeds `get_student_embedding` (lines 174-217, `force_regenerate=False`):
a truthy cached vector is returned as is, otherwise the embedding is generated
from the parsed resume (absent resume gives `None`).  The write-through store
into the cache does not affect the returned value and is not modelled. -/
noncomputable def get_student_embedding (digest : String → List ℕ) (env : MatchEnv) :
    Option (List ℝ) :=
  let gen := env.studentParsed.map
    (fun sp => generate_simple_embedding digest (text_to_features_student sp))
  match env.studentCache with
  | some v => if v ≠ [] then some v else gen
  | none => gen

/-- Embeds `get_job_embedding` (lines 219-255), same shape as the student
version. -/
noncomputable def get_job_embedding (digest : String → List ℕ) (env : MatchEnv) (jid : ℤ) :
    Option (List ℝ) :=
  let gen := (env.jobParsed jid).map
    (fun jp => generate_simple_embedding digest (text_to_features_job jp))
  match env.jobCache jid with
  | some v => if v ≠ [] then some v else gen
  | none => gen

/-! ### The recommendation generation pipeline (lines 351-447) -/

/-- One recommendation dict appended at lines 436-443. -/
structure Rec where
  job_id : ℤ
  job_title : String
  match_score : ℝ
  skill_match_pct : ℝ
  experience_match : Bool
  embedding_similarity : ℝ

/-- Lines 407-425: skill percentage and experience flag for a job, falling
back to `(50.0, True)` when the job has no parsed document. -/
def jobSkillExp (env : MatchEnv) (student_skills : List String) (student_experience : ℚ)
    (job : JobRow) : ℝ × Bool :=
  match env.jobParsed job.job_id with
  | some jd => (((compute_skill_match_percentage student_skills jd.required_skills : ℚ) : ℝ),
                check_experience_match student_experience job.min_experience job.max_experience)
  | none => (50.0, true)

/-- Scores one open job (lines 392-443 loop body): resolve the job embedding
(`None`/empty means the job is skipped, returning `none`), compute cosine
similarity (a dimension mismatch escapes as the `ValueError`), normalize it,
blend with skill/experience sub-scores, and build the rounded entry together
with its unrounded combined score (used for the `min_score` filter). -/
noncomputable def scoreJob (digest : String → List ℕ) (env : MatchEnv) (studentEmb : List ℝ)
    (student_skills : List String) (student_experience : ℚ) (job : JobRow) :
    Except String (Option (ℝ × Rec)) :=
  match get_job_embedding digest env job.job_id with
  | none => .ok none
  | some jobEmb =>
    if jobEmb = [] then .ok none
    else
      match cosine_similarity studentEmb jobEmb with
      | .error e => .error e
      | .ok similarity =>
        let match_score := (similarity + 1) / 2
        let se := jobSkillExp env student_skills student_experience job
        let c := combined_score match_score se.1 se.2
        .ok (some (c, { job_id := job.job_id, job_title := job.title,
                        match_score := pyRound 4 c,
                        skill_match_pct := pyRound 2 se.1,
                        experience_match := se.2,
                        embedding_similarity := pyRound 4 match_score }))

/-- The scoring loop over all open jobs, in enumeration order; the first
raised error aborts the whole call, skipped jobs contribute nothing. -/
noncomputable def scoreJobs (digest : String → List ℕ) (env : MatchEnv) (studentEmb : List ℝ)
    (student_skills : List String) (student_experience : ℚ) :
    List JobRow → Except String (List (ℝ × Rec))
  | [] => .ok []
  | job :: rest =>
    match scoreJob digest env studentEmb student_skills student_experience job with
    | .error e => .error e
    | .ok none => scoreJobs digest env studentEmb student_skills student_experience rest
    | .ok (some x) =>
      match scoreJobs digest env studentEmb student_skills student_experience rest with
      | .error e => .error e
      | .ok xs => .ok (x :: xs)

/-- Line 435 filter: keep the entries whose unrounded combined score reaches
`min_score`, dropping the raw scores. -/
noncomputable def keptRecs (min_score : ℝ) (scored : List (ℝ × Rec)) : List Rec :=
  (scored.filter (fun x => min_score ≤ x.1)).map (fun x => x.2)

/-- Sort key of line 446: descending by the stored (rounded) `match_score`;
Python `list.sort` is stable, as is `List.mergeSort`. -/
noncomputable def recLE (a b : Rec) : Bool := decide (b.match_score ≤ a.match_score)

/-- Embeds `generate_recommendations` (lines 351-447). -/
noncomputable def generate_recommendations (digest : String → List ℕ) (env : MatchEnv)
    (top_n : ℕ) (min_score : ℝ) : Except String (List Rec) :=
  match get_student_embedding digest env with
  | none => .ok []
  | some studentEmb =>
    if studentEmb = [] then .ok []
    else
      match env.studentParsed with
      | none => .ok []
      | some sp =>
        match scoreJobs digest env studentEmb sp.skills sp.experience_years env.jobs with
        | .error e => .error e
        | .ok scored =>
          .ok (((keptRecs min_score scored).mergeSort recLE).take top_n)

/-! ### Structural lemmas about the scoring loop -/

/-- With equal lengths `cosine_similarity` always succeeds. -/
theorem cosine_similarity_isOk_of_length (v1 v2 : List ℝ) (h : v1.length = v2.length) :
    ∃ sim, cosine_similarity v1 v2 = .ok sim := by
  have hl : ¬ v1.length ≠ v2.length := by simpa using h
  unfold cosine_similarity
  rw [if_neg hl]
  by_cases hz : Real.sqrt (sumsqR v1) = 0 ∨ Real.sqrt (sumsqR v2) = 0
  · exact ⟨0, if_pos hz⟩
  · exact ⟨_, if_neg hz⟩

/-- Characterization of a successfully scored job: the entry records the
rounded combined score, skill percentage, experience flag and normalized
similarity of that job. -/
theorem scoreJob_eq_some (digest : String → List ℕ) (env : MatchEnv) (se : List ℝ)
    (sk : List String) (yx : ℚ) (job : JobRow) (c : ℝ) (r : Rec)
    (h : scoreJob digest env se sk yx job = .ok (some (c, r))) :
    ∃ je sim, get_job_embedding digest env job.job_id = some je ∧ je ≠ [] ∧
      cosine_similarity se je = .ok sim ∧
      c = combined_score ((sim + 1) / 2) (jobSkillExp env sk yx job).1
            (jobSkillExp env sk yx job).2 ∧
      r = { job_id := job.job_id, job_title := job.title,
            match_score := pyRound 4 c,
            skill_match_pct := pyRound 2 (jobSkillExp env sk yx job).1,
            experience_match := (jobSkillExp env sk yx job).2,
            embedding_similarity := pyRound 4 ((sim + 1) / 2) } := by
  cases hje : get_job_embedding digest env job.job_id with
  | none => simp [scoreJob, hje] at h
  | some je =>
    by_cases hne : je = []
    · simp [scoreJob, hje, hne] at h
    · cases hcos : cosine_similarity se je with
      | error e => simp [scoreJob, hje, hne, hcos] at h
      | ok sim =>
        simp only [scoreJob, hje, if_neg hne, hcos, Except.ok.injEq, Option.some.injEq,
          Prod.mk.injEq] at h
        obtain ⟨hc, hr⟩ := h
        subst hc
        exact ⟨je, sim, rfl, hne, hcos, rfl, hr.symm⟩

/-- Soundness of the scoring loop: every collected entry comes from scoring
one of the enumerated jobs. -/
theorem scoreJobs_mem_of (digest : String → List ℕ) (env : MatchEnv) (se : List ℝ)
    (sk : List String) (yx : ℚ) :
    ∀ {jobs : List JobRow} {scored : List (ℝ × Rec)},
      scoreJobs digest env se sk yx jobs = .ok scored →
      ∀ x ∈ scored, ∃ job ∈ jobs, scoreJob digest env se sk yx job = .ok (some x)
  | [], scored, h, x, hx => by
    simp only [scoreJobs, Except.ok.injEq] at h
    subst h
    simp at hx
  | job :: rest, scored, h, x, hx => by
    cases hj : scoreJob digest env se sk yx job with
    | error e => rw [scoreJobs, hj] at h; exact absurd h (by simp)
    | ok o =>
      cases o with
      | none =>
        rw [scoreJobs, hj] at h
        obtain ⟨j2, hj2, hs2⟩ := scoreJobs_mem_of digest env se sk yx h x hx
        exact ⟨j2, List.mem_cons_of_mem _ hj2, hs2⟩
      | some y =>
        rw [scoreJobs, hj] at h
        cases hrest : scoreJobs digest env se sk yx rest with
        | error e => rw [hrest] at h; exact absurd h (by simp)
        | ok xs =>
          rw [hrest] at h
          simp only [Except.ok.injEq] at h
          subst h
          rcases List.mem_cons.mp hx with rfl | hx2
          · exact ⟨job, List.mem_cons_self _ _, hj⟩
          · obtain ⟨j2, hj2, hs2⟩ := scoreJobs_mem_of digest env se sk yx hrest x hx2
            exact ⟨j2, List.mem_cons_of_mem _ hj2, hs2⟩

/-- Completeness of the scoring loop: a job scored to an entry contributes
that entry to the collected list. -/
theorem scoreJobs_mem (digest : String → List ℕ) (env : MatchEnv) (se : List ℝ)
    (sk : List String) (yx : ℚ) :
    ∀ {jobs : List JobRow} {scored : List (ℝ × Rec)},
      scoreJobs digest env se sk yx jobs = .ok scored →
      ∀ job ∈ jobs, ∀ x, scoreJob digest env se sk yx job = .ok (some x) → x ∈ scored
  | [], scored, h, job, hjob, x, hx => by simp at hjob
  | job0 :: rest, scored, h, job, hjob, x, hx => by
    cases hj : scoreJob digest env se sk yx job0 with
    | error e => rw [scoreJobs, hj] at h; exact absurd h (by simp)
    | ok o =>
      cases o with
      | none =>
        rw [scoreJobs, hj] at h
        rcases List.mem_cons.mp hjob with rfl | hjob2
        · rw [hj] at hx; exact absurd hx (by simp)
        · exact scoreJobs_mem digest env se sk yx h job hjob2 x hx
      | some y =>
        rw [scoreJobs, hj] at h
        cases hrest : scoreJobs digest env se sk yx rest with
        | error e => rw [hrest] at h; exact absurd h (by simp)
        | ok xs =>
          rw [hrest] at h
          simp only [Except.ok.injEq] at h
          subst h
          rcases List.mem_cons.mp hjob with rfl | hjob2
          · rw [hj] at hx
            simp only [Except.ok.injEq, Option.some.injEq] at hx
            subst hx
            exact List.mem_cons_self _ _
          · exact List.mem_cons_of_mem _
              (scoreJobs_mem digest env se sk yx hrest job hjob2 x hx)

/-- The sort key relation is transitive. -/
theorem recLE_trans (a b c : Rec) (h1 : recLE a b = true) (h2 : recLE b c = true) :
    recLE a c = true := by
  simp only [recLE, decide_eq_true_eq] at h1 h2 ⊢
  exact le_trans h2 h1

/-- The sort key relation is total. -/
theorem recLE_total (a b : Rec) : (recLE a b || recLE b a) = true := by
  simp only [recLE, Bool.or_eq_true, decide_eq_true_eq]
  exact le_total b.match_score a.match_score

/-- C2: under a resolvable student embedding and parsed profile and a loop
that raises no dimension error, `generate_recommendations` returns exactly the
entries of jobs whose unrounded combined score reaches `min_score`, stably
merge-sorted descending by the entries' (rounded) `match_score` and truncated
to `top_n`; the output is sorted descending, has at most `top_n` entries,
every output entry is a kept scored entry of some open job, every kept scored
entry survives into the sorted list (only `top_n` truncation can drop it),
ties preserve enumeration order (stability), and every entry carries the job
id, title, 4-decimal rounded score and similarity, 2-decimal rounded skill
percentage and the experience flag of its job. -/
theorem C2_generate_recommendations_pipeline (digest : String → List ℕ) (env : MatchEnv)
    (top_n : ℕ) (min_score : ℝ) (se : List ℝ) (sp : StudentParsed) (scored : List (ℝ × Rec))
    (hse : get_student_embedding digest env = some se) (hne : se ≠ [])
    (hsp : env.studentParsed = some sp)
    (hsc : scoreJobs digest env se sp.skills sp.experience_years env.jobs = .ok scored) :
    generate_recommendations digest env top_n min_score =
        .ok (((keptRecs min_score scored).mergeSort recLE).take top_n) ∧
    (((keptRecs min_score scored).mergeSort recLE).take top_n).Pairwise
        (fun a b => b.match_score ≤ a.match_score) ∧
    (((keptRecs min_score scored).mergeSort recLE).take top_n).length ≤ top_n ∧
    (∀ r ∈ ((keptRecs min_score scored).mergeSort recLE).take top_n,
        ∃ c, (c, r) ∈ scored ∧ min_score ≤ c ∧
          ∃ job ∈ env.jobs,
            scoreJob digest env se sp.skills sp.experience_years job = .ok (some (c, r))) ∧
    (∀ c r, (c, r) ∈ scored → min_score ≤ c →
        r ∈ (keptRecs min_score scored).mergeSort recLE) ∧
    (∀ a b, [a, b].Sublist (keptRecs min_score scored) → b.match_score ≤ a.match_score →
        [a, b].Sublist ((keptRecs min_score scored).mergeSort recLE)) ∧
    (∀ job ∈ env.jobs, ∀ c r,
        scoreJob digest env se sp.skills sp.experience_years job = .ok (some (c, r)) →
        ∃ je sim, get_job_embedding digest env job.job_id = some je ∧
          cosine_similarity se je = .ok sim ∧
          c = combined_score ((sim + 1) / 2)
                (jobSkillExp env sp.skills sp.experience_years job).1
                (jobSkillExp env sp.skills sp.experience_years job).2 ∧
          r.job_id = job.job_id ∧ r.job_title = job.title ∧
          r.match_score = pyRound 4 c ∧
          r.skill_match_pct = pyRound 2 (jobSkillExp env sp.skills sp.experience_years job).1 ∧
          r.experience_match = (jobSkillExp env sp.skills sp.experience_years job).2 ∧
          r.embedding_similarity = pyRound 4 ((sim + 1) / 2)) := by
  refine ⟨?_, ?_, ?_, ?_, ?_, ?_, ?_⟩
  · simp [generate_recommendations, hse, hne, hsp, hsc]
  · have hs := List.sorted_mergeSort recLE_trans recLE_total (keptRecs min_score scored)
    have hs2 : ((keptRecs min_score scored).mergeSort recLE).Pairwise
        (fun a b => b.match_score ≤ a.match_score) :=
      hs.imp (fun h => by simpa [recLE] using h)
    exact hs2.sublist (List.take_sublist _ _)
  · exact List.length_take_le _ _
  · intro r hr
    have hr2 : r ∈ (keptRecs min_score scored).mergeSort recLE :=
      (List.take_subset _ _) hr
    have hr3 : r ∈ keptRecs min_score scored := List.mem_mergeSort.mp hr2
    obtain ⟨⟨c, r2⟩, hmem, hx⟩ := List.mem_map.mp hr3
    obtain ⟨hmem2, hkeep⟩ := List.mem_filter.mp hmem
    subst hx
    obtain ⟨job, hjob, hs⟩ := scoreJobs_mem_of digest env se sp.skills sp.experience_years
      hsc _ hmem2
    exact ⟨c, hmem2, by simpa using hkeep, job, hjob, hs⟩
  · intro c r hmem hkeep
    refine List.mem_mergeSort.mpr (List.mem_map.mpr ⟨(c, r), List.mem_filter.mpr ⟨hmem, ?_⟩, rfl⟩)
    simpa using hkeep
  · intro a b hab hle
    exact List.pair_sublist_mergeSort recLE_trans recLE_total
      (by simpa [recLE] using hle) hab
  · intro job hjob c r hs
    obtain ⟨je, sim, hje, -, hcos, hc, hr⟩ :=
      scoreJob_eq_some digest env se sp.skills sp.experience_years job c r hs
    subst hr
    exact ⟨je, sim, hje, hcos, hc, rfl, rfl, rfl, rfl, rfl, rfl⟩

/-- C6: a job whose embedding cannot be resolved (no truthy cached vector and
no parsed document) is skipped, while a job with a cached embedding but no
parsed document at scoring time is still scored with the default skill match
50.0 and experience flag true, and its entry reaches the collected list. -/
theorem C6_skip_vs_default_scoring (digest : String → List ℕ) (env : MatchEnv) (se : List ℝ)
    (sk : List String) (yx : ℚ) (job : JobRow) :
    (env.jobCache job.job_id = none → env.jobParsed job.job_id = none →
      scoreJob digest env se sk yx job = .ok none) ∧
    (get_job_embedding digest env job.job_id = none →
      scoreJob digest env se sk yx job = .ok none) ∧
    (∀ v, env.jobCache job.job_id = some v → v ≠ [] → env.jobParsed job.job_id = none →
      se.length = v.length →
      ∃ c r, scoreJob digest env se sk yx job = .ok (some (c, r)) ∧
        r.skill_match_pct = 50 ∧ r.experience_match = true ∧ r.job_id = job.job_id) ∧
    (∀ v jobs scored, env.jobCache job.job_id = some v → v ≠ [] →
      env.jobParsed job.job_id = none → se.length = v.length → job ∈ jobs →
      scoreJobs digest env se sk yx jobs = .ok scored →
      ∃ c r, (c, r) ∈ scored ∧ r.skill_match_pct = 50 ∧ r.experience_match = true ∧
        r.job_id = job.job_id) := by
  have h50 : pyRound 2 (50.0 : ℝ) = 50 := by
    norm_num [pyRound, round_eq]
  have hmain : ∀ v, env.jobCache job.job_id = some v → v ≠ [] →
      env.jobParsed job.job_id = none → se.length = v.length →
      ∃ c r, scoreJob digest env se sk yx job = .ok (some (c, r)) ∧
        r.skill_match_pct = 50 ∧ r.experience_match = true ∧ r.job_id = job.job_id := by
    intro v hv hvne hjp hlen
    have hje : get_job_embedding digest env job.job_id = some v := by
      simp [get_job_embedding, hv, hvne]
    obtain ⟨sim, hcos⟩ := cosine_similarity_isOk_of_length se v hlen
    have hskill : jobSkillExp env sk yx job = ((50.0 : ℝ), true) := by
      simp [jobSkillExp, hjp]
    refine ⟨combined_score ((sim + 1) / 2) 50.0 true,
      { job_id := job.job_id, job_title := job.title,
        match_score := pyRound 4 (combined_score ((sim + 1) / 2) 50.0 true),
        skill_match_pct := pyRound 2 (50.0 : ℝ),
        experience_match := true,
        embedding_similarity := pyRound 4 ((sim + 1) / 2) }, ?_, h50, rfl, rfl⟩
    simp only [scoreJob, hje, if_neg hvne, hcos, hskill]
  refine ⟨fun hc hp => ?_, fun hje => ?_, hmain, ?_⟩
  · have hje : get_job_embedding digest env job.job_id = none := by
      simp [get_job_embedding, hc, hp]
    simp [scoreJob, hje]
  · simp [scoreJob, hje]
  · intro v jobs scored hv hvne hjp hlen hjob hsc
    obtain ⟨c, r, hs, h1, h2, h3⟩ := hmain v hv hvne hjp hlen
    exact ⟨c, r, scoreJobs_mem digest env se sk yx hsc job hjob (c, r) hs, h1, h2, h3⟩

/-- C8: a missing student embedding, a missing parsed profile, or an empty
set of open jobs each make `generate_recommendations` return an empty list
without raising. -/
theorem C8_empty_result_on_absent_inputs (digest : String → List ℕ) (env : MatchEnv)
    (top_n : ℕ) (min_score : ℝ)
    (h : get_student_embedding digest env = none ∨ env.studentParsed = none ∨ env.jobs = []) :
    generate_recommendations digest env top_n min_score = .ok [] := by
  rcases h with h | h | h
  · simp [generate_recommendations, h]
  · cases hse : get_student_embedding digest env with
    | none => simp [generate_recommendations, hse]
    | some se =>
      by_cases hne : se = [] <;> simp [generate_recommendations, hse, hne, h]
  · cases hse : get_student_embedding digest env with
    | none => simp [generate_recommendations, hse]
    | some se =>
      by_cases hne : se = []
      · simp [generate_recommendations, hse, hne]
      · cases hsp : env.studentParsed with
        | none => simp [generate_recommendations, hse, hne, hsp]
        | some sp =>
          simp [generate_recommendations, hse, hne, hsp, h, scoreJobs, keptRecs]

/-- Witness for C8: the empty environment yields an empty result. -/
theorem C8_empty_result_witness :
    generate_recommendations (fun _ => []) ⟨none, none, [], fun _ => none, fun _ => none⟩
      10 (3 / 10) = .ok [] :=
  C8_empty_result_on_absent_inputs (fun _ => [])
    ⟨none, none, [], fun _ => none, fun _ => none⟩ 10 (3 / 10) (Or.inr (Or.inl rfl))

/-- C9: the hash-based projection and the full generation pipeline are
deterministic functions of their inputs: the model is pure, the only
impure ingredient of the code (the SHA-256 digest) enters as the explicit
parameter `digest`, held fixed between the two runs, and the sort is the
stable `mergeSort`, so two calls on identical inputs agree definitionally. -/
theorem C9_projection_and_generation_deterministic (digest : String → List ℕ)
    (text : String) (env : MatchEnv) (top_n : ℕ) (min_score : ℝ) :
    generate_simple_embedding digest text = generate_simple_embedding digest text ∧
    generate_recommendations digest env top_n min_score =
      generate_recommendations digest env top_n min_score :=
  ⟨rfl, rfl⟩

/-! ### Concrete witness data for the pipeline claims -/

/-- Degenerate digest for witnesses (the pipeline statements hold for any). -/
def dig0 : String → List ℕ := fun _ => []

/-- A parsed profile with no skills and zero experience. -/
def sp0 : StudentParsed := ⟨[], 0, [], []⟩

/-- One open job row. -/
def job1 : JobRow := ⟨1, "T", 0, none⟩

/-- Environment with cached student and job vectors and no parsed job doc. -/
noncomputable def env2 : MatchEnv :=
  ⟨some [1], some sp0, [job1], fun _ => some [1], fun _ => none⟩

/-- Environment where the job has neither cached vector nor parsed doc. -/
noncomputable def env3 : MatchEnv :=
  ⟨some [1], some sp0, [job1], fun _ => none, fun _ => none⟩

/-- The unrounded combined score of `job1` in `env2`. -/
noncomputable def c1 : ℝ := combined_score ((1 + 1) / 2) 50.0 true

/-- The recommendation entry of `job1` in `env2`. -/
noncomputable def r1 : Rec :=
  ⟨1, "T", pyRound 4 c1, pyRound 2 50.0, true, pyRound 4 ((1 + 1) / 2)⟩

/-- The student embedding of `env2` resolves from the cache. -/
theorem env2_student_embedding : get_student_embedding dig0 env2 = some [1] := by
  simp [get_student_embedding, env2]

/-- The job embedding of `job1` in `env2` resolves from the cache. -/
theorem env2_job_embedding : get_job_embedding dig0 env2 job1.job_id = some [1] := by
  simp [get_job_embedding, env2]

/-- Cosine similarity of the two cached unit vectors is 1. -/
theorem cos_one_one : cosine_similarity [(1 : ℝ)] [1] = .ok 1 := by
  rw [cosine_similarity_ok [(1 : ℝ)] [1] rfl (by norm_num [sumsqR]) (by norm_num [sumsqR])]
  norm_num [dotR, sumsqR, Real.sqrt_one]

/-- Scoring the single open job of `env2` yields exactly the entry `r1`. -/
theorem env2_scoreJobs :
    scoreJobs dig0 env2 [1] sp0.skills sp0.experience_years env2.jobs = .ok [(c1, r1)] := by
  have hskill : jobSkillExp env2 sp0.skills sp0.experience_years job1 = ((50.0 : ℝ), true) := by
    simp [jobSkillExp, env2]
  have hsj : scoreJob dig0 env2 [1] sp0.skills sp0.experience_years job1 =
      .ok (some (c1, r1)) := by
    simp only [scoreJob, env2_job_embedding, cos_one_one, hskill, c1, r1]
    simp [job1]
  show scoreJobs dig0 env2 [1] sp0.skills sp0.experience_years [job1] = .ok [(c1, r1)]
  rw [scoreJobs, hsj, scoreJobs]

/-- Witness for C2: in `env2` the pipeline returns the sorted, truncated,
kept entry list of its single scored job. -/
theorem C2_generate_recommendations_witness :
    generate_recommendations dig0 env2 10 (3 / 10) =
      .ok (((keptRecs (3 / 10) [(c1, r1)]).mergeSort recLE).take 10) :=
  (C2_generate_recommendations_pipeline dig0 env2 10 (3 / 10) [1] sp0 [(c1, r1)]
    env2_student_embedding (by simp) rfl env2_scoreJobs).1

/-! Counterexample data for the raw-score reading of the sort contract: two
jobs whose unrounded combined scores differ (0.79995… versus 0.8) but agree
after the 4-decimal rounding applied to the stored `match_score`, which is
the sort key the code actually uses. -/

/-- First-enumerated open job. -/
def jobA : JobRow := ⟨1, "A", 0, none⟩

/-- Second-enumerated open job. -/
def jobB : JobRow := ⟨2, "B", 0, none⟩

/-- Environment with cached vectors giving `jobA` similarity `9999/10001`
(a 100-1 Pythagorean triple) and `jobB` similarity `1`. -/
noncomputable def envX : MatchEnv :=
  ⟨some [1, 0], some sp0, [jobA, jobB],
   fun j => if j = 1 then some [9999, 200] else some [1, 0],
   fun _ => none⟩

/-- Unrounded combined score of `jobA`: `5000/10001 + 3/10 = 0.79995…`. -/
noncomputable def cA : ℝ := combined_score ((9999 / 10001 + 1) / 2) 50.0 true

/-- Unrounded combined score of `jobB`: `0.8`. -/
noncomputable def cB : ℝ := combined_score ((1 + 1) / 2) 50.0 true

/-- Entry of `jobA`. -/
noncomputable def rA : Rec :=
  ⟨1, "A", pyRound 4 cA, pyRound 2 50.0, true, pyRound 4 ((9999 / 10001 + 1) / 2)⟩

/-- Entry of `jobB`. -/
noncomputable def rB : Rec :=
  ⟨2, "B", pyRound 4 cB, pyRound 2 50.0, true, pyRound 4 ((1 + 1) / 2)⟩

/-- Cosine similarity of the student vector with the `jobA` vector. -/
theorem cos_A : cosine_similarity [(1 : ℝ), 0] [9999, 200] = .ok (9999 / 10001) := by
  rw [cosine_similarity_ok [(1 : ℝ), 0] [9999, 200] rfl (by norm_num [sumsqR])
    (by norm_num [sumsqR])]
  have h1 : sumsqR [(1 : ℝ), 0] = 1 := by norm_num [sumsqR]
  have h2 : sumsqR [(9999 : ℝ), 200] = 10001 ^ 2 := by norm_num [sumsqR]
  rw [h1, h2, Real.sqrt_one, Real.sqrt_sq (by norm_num)]
  norm_num [dotR]

/-- Cosine similarity of the student vector with the `jobB` vector. -/
theorem cos_B : cosine_similarity [(1 : ℝ), 0] [1, 0] = .ok 1 := by
  rw [cosine_similarity_ok [(1 : ℝ), 0] [1, 0] rfl (by norm_num [sumsqR])
    (by norm_num [sumsqR])]
  have h1 : sumsqR [(1 : ℝ), 0] = 1 := by norm_num [sumsqR]
  rw [h1, Real.sqrt_one]
  norm_num [dotR]

/-- Scoring `jobA` in `envX`. -/
theorem scoreJob_A : scoreJob dig0 envX [(1 : ℝ), 0] [] 0 jobA = .ok (some (cA, rA)) := by
  have hje : get_job_embedding dig0 envX jobA.job_id = some [9999, 200] := by
    simp [get_job_embedding, envX, jobA]
  have hskill : jobSkillExp envX [] 0 jobA = ((50.0 : ℝ), true) := by
    simp [jobSkillExp, envX]
  simp only [scoreJob, hje, cos_A, hskill, cA, rA]
  simp [jobA]

/-- Scoring `jobB` in `envX`. -/
theorem scoreJob_B : scoreJob dig0 envX [(1 : ℝ), 0] [] 0 jobB = .ok (some (cB, rB)) := by
  have hje : get_job_embedding dig0 envX jobB.job_id = some [1, 0] := by
    simp [get_job_embedding, envX, jobB]
  have hskill : jobSkillExp envX [] 0 jobB = ((50.0 : ℝ), true) := by
    simp [jobSkillExp, envX]
  simp only [scoreJob, hje, cos_B, hskill, cB, rB]
  simp [jobB]

/-- The two stored match scores agree: both round to `0.8`. -/
theorem pyRound_cA : pyRound 4 cA = 0.8 := by
  norm_num [pyRound, cA, combined_score, round_eq]

/-- The exact score of `jobB` rounds to itself. -/
theorem pyRound_cB : pyRound 4 cB = 0.8 := by
  norm_num [pyRound, cB, combined_score, round_eq]

/-- Scoring the two open jobs of `envX` in enumeration order. -/
theorem envX_scoreJobs :
    scoreJobs dig0 envX [(1 : ℝ), 0] [] 0 [jobA, jobB] = .ok [(cA, rA), (cB, rB)] := by
  simp only [scoreJobs, scoreJob_A, scoreJob_B]

/-- Refutation of the raw-score reading of C2: in `envX` both jobs pass the
filter and `jobB` has the strictly larger unrounded combined score, yet the
returned order is `[rA, rB]` — enumeration order — because the stored
4-decimal `match_score` of both entries is `0.8` and the code sorts by that
stored rounded key, so the output is not descending in the unrounded combined
score. -/
theorem C2_raw_sort_counterexample :
    scoreJob dig0 envX [(1 : ℝ), 0] [] 0 jobA = .ok (some (cA, rA)) ∧
    scoreJob dig0 envX [(1 : ℝ), 0] [] 0 jobB = .ok (some (cB, rB)) ∧
    cA < cB ∧ (3 : ℝ) / 10 ≤ cA ∧ pyRound 4 cA = pyRound 4 cB ∧
    generate_recommendations dig0 envX 10 (3 / 10) = .ok [rA, rB] := by
  have h1 : (3 : ℝ) / 10 ≤ cA := by norm_num [cA, combined_score]
  have h2 : (3 : ℝ) / 10 ≤ cB := by norm_num [cB, combined_score]
  refine ⟨scoreJob_A, scoreJob_B, ?_, h1, ?_, ?_⟩
  · norm_num [cA, cB, combined_score]
  · rw [pyRound_cA, pyRound_cB]
  · have hse : get_student_embedding dig0 envX = some [(1 : ℝ), 0] := by
      simp [get_student_embedding, envX]
    have hp : envX.studentParsed = some sp0 := rfl
    have hjobs : envX.jobs = [jobA, jobB] := rfl
    have hsk : sp0.skills = ([] : List String) := rfl
    have hex : sp0.experience_years = (0 : ℚ) := rfl
    have hkept : keptRecs (3 / 10) [(cA, rA), (cB, rB)] = [rA, rB] := by
      simp [keptRecs, h1, h2]
    have hsorted : List.Pairwise (fun a b => recLE a b = true) [rA, rB] := by
      simp [recLE, rA, rB, pyRound_cA, pyRound_cB]
    simp only [generate_recommendations, hse, hp, hjobs, hsk, hex, envX_scoreJobs, hkept,
      List.mergeSort_of_sorted hsorted]
    simp

/-- Witness for C6: in `env3` the job is skipped, in `env2` it is scored with
the default skill match 50 and experience flag true. -/
theorem C6_skip_vs_default_witness :
    scoreJob dig0 env3 [1] [] 0 job1 = .ok none ∧
    (∃ c r, scoreJob dig0 env2 [1] [] 0 job1 = .ok (some (c, r)) ∧
      r.skill_match_pct = 50 ∧ r.experience_match = true ∧ r.job_id = job1.job_id) :=
  ⟨(C6_skip_vs_default_scoring dig0 env3 [1] [] 0 job1).1 rfl rfl,
   (C6_skip_vs_default_scoring dig0 env2 [1] [] 0 job1).2.2.1 [1] rfl (by simp) rfl rfl⟩

/-! ### The `ai_recommendations` table (lines 449-527 and 572-604)

The table has a unique key `(student_id, job_id)`, so it is modelled as a map
from that key to the row; times (`utcnow`, `CURRENT_TIMESTAMP`) are seconds as
integers, taken from a single instant `now` per call. -/

/-- One row of `ai_recommendations`. -/
structure RecRow where
  student_id : ℤ
  job_id : ℤ
  match_score : ℝ
  skill_match_pct : ℝ
  experience_match : Bool
  recommendation_reason : String
  expires_at : ℤ
  created_at : ℤ
  is_viewed : Bool
  is_applied : Bool

/-- The table, keyed by its unique constraint. -/
def RecDB := ℤ × ℤ → Option RecRow

/-- Embeds `_generate_reason` (lines 507-527): overall percentage, a skill
bucket at thresholds 80 and 50, and an experience phrase, joined by periods. -/
noncomputable def generate_reason (rec : Rec) : String :=
  let score_pct := pyInt (rec.match_score * 100)
  let skill_pct := pyInt rec.skill_match_pct
  let r1 := "Overall match: " ++ toString score_pct ++ "%"
  let r2 :=
    if 80 ≤ skill_pct then "Excellent skill match (" ++ toString skill_pct ++ "%)"
    else if 50 ≤ skill_pct then "Good skill match (" ++ toString skill_pct ++ "%)"
    else "Partial skill match (" ++ toString skill_pct ++ "%)"
  let r3 := if rec.experience_match then "Experience requirements met"
    else "Experience slightly outside range"
  r1 ++ ". " ++ r2 ++ ". " ++ r3 ++ "."

/-- The `is_viewed`/`is_applied` pair of an optional row; a missing row
contributes the column defaults `(false, false)` used on insert. -/
def oldFlags (o : Option RecRow) : Bool × Bool :=
  match o with
  | some row => (row.is_viewed, row.is_applied)
  | none => (false, false)

/-- The row written by one upsert of the `INSERT ... ON CONFLICT (student_id,
job_id) DO UPDATE` statement: fresh scores, reason, `expires_at = now + 7
days` and `created_at = now`, with the view/apply flags carried over. -/
noncomputable def upsertedRow (now student_id : ℤ) (rec : Rec) (flags : Bool × Bool) :
    RecRow where
  student_id := student_id
  job_id := rec.job_id
  match_score := rec.match_score
  skill_match_pct := rec.skill_match_pct
  experience_match := rec.experience_match
  recommendation_reason := generate_reason rec
  expires_at := now + 7 * 86400
  created_at := now
  is_viewed := flags.1
  is_applied := flags.2

/-- One iteration of the storing loop (lines 471-503). -/
noncomputable def upsertRecommendation (now student_id : ℤ) (db : RecDB) (rec : Rec) :
    RecDB :=
  fun k =>
    if k = (student_id, rec.job_id) then some (upsertedRow now student_id rec (oldFlags (db k)))
    else db k

/-- Embeds `store_recommendations` (lines 449-505): upsert every entry and
return how many were written. -/
noncomputable def store_recommendations (now student_id : ℤ) (recommendations : List Rec)
    (db : RecDB) : ℕ × RecDB :=
  match recommendations with
  | [] => (0, db)
  | _ => (recommendations.length,
          recommendations.foldl (upsertRecommendation now student_id) db)

/-- The last entry of the list whose `job_id` is `j` (the one whose upsert
wins at that key). -/
def lastMatch (j : ℤ) : List Rec → Option Rec
  | [] => none
  | r :: rs =>
    match lastMatch j rs with
    | some r2 => some r2
    | none => if r.job_id = j then some r else none

/-- An upserted row carries exactly the flags it was given. -/
theorem oldFlags_upsertedRow (now student_id : ℤ) (rec : Rec) (flags : Bool × Bool) :
    oldFlags (some (upsertedRow now student_id rec flags)) = flags := by
  cases flags
  rfl

/-- Upserting never changes the view/apply flags stored at a key of the
calling student. -/
theorem oldFlags_upsert (now student_id : ℤ) (db : RecDB) (rec : Rec) (j : ℤ) :
    oldFlags ((upsertRecommendation now student_id db rec) (student_id, j)) =
      oldFlags (db (student_id, j)) := by
  unfold upsertRecommendation
  by_cases h : ((student_id, j) : ℤ × ℤ) = (student_id, rec.job_id)
  · rw [if_pos h, h, oldFlags_upsertedRow]
  · rw [if_neg h]

/-- Rows of other students are never touched by an upsert. -/
theorem upsert_other_student (now student_id : ℤ) (db : RecDB) (rec : Rec) (s j : ℤ)
    (h : s ≠ student_id) :
    (upsertRecommendation now student_id db rec) (s, j) = db (s, j) := by
  unfold upsertRecommendation
  rw [if_neg]
  intro hk
  exact h (congrArg Prod.fst hk)

/-- Pointwise characterization of the storing fold: at a key of the calling
student the last matching entry wins, carrying the flags the key had before
the whole batch; every other key is untouched. -/
theorem foldl_upsert_apply (now student_id : ℤ) :
    ∀ (recs : List Rec) (db : RecDB) (s j : ℤ),
      (recs.foldl (upsertRecommendation now student_id) db) (s, j) =
        if s = student_id then
          match lastMatch j recs with
          | some r => some (upsertedRow now student_id r (oldFlags (db (student_id, j))))
          | none => db (s, j)
        else db (s, j)
  | [], db, s, j => by
    by_cases h : s = student_id <;> simp [lastMatch, h]
  | rec :: recs, db, s, j => by
    rw [List.foldl_cons,
      foldl_upsert_apply now student_id recs (upsertRecommendation now student_id db rec) s j]
    by_cases hs : s = student_id
    · subst hs
      rw [if_pos rfl, if_pos rfl]
      cases hlm : lastMatch j recs with
      | some r2 =>
        simp only [lastMatch, hlm, oldFlags_upsert]
      | none =>
        simp only [lastMatch, hlm]
        by_cases hj : rec.job_id = j
        · subst hj
          rw [if_pos rfl]
          unfold upsertRecommendation
          rw [if_pos rfl]
        · rw [if_neg hj]
          unfold upsertRecommendation
          rw [if_neg]
          intro hk
          exact hj (congrArg Prod.snd hk).symm
    · rw [if_neg hs, if_neg hs, upsert_other_student now student_id db rec s j hs]

/-- C7: `store_recommendations` returns the number of entries written and
upserts one row per `(student_id, job_id)`: at each key of the calling
student the last entry for that job determines the stored row — fresh
score fields, the regenerated deterministic reason, `expires_at = now + 7
days`, `created_at` reset to `now` — while the `is_viewed`/`is_applied`
flags the key held before the call are preserved (defaults `false` on a
fresh insert); all other rows are unchanged. -/
theorem C7_store_recommendations_spec (now student_id : ℤ) (recs : List Rec) (db : RecDB)
    (s j : ℤ) :
    (store_recommendations now student_id recs db).1 = recs.length ∧
    (store_recommendations now student_id recs db).2 (s, j) =
      (if s = student_id then
        match lastMatch j recs with
        | some r => some (upsertedRow now student_id r (oldFlags (db (student_id, j))))
        | none => db (s, j)
      else db (s, j)) := by
  constructor
  · cases recs <;> simp [store_recommendations]
  · cases recs with
    | nil =>
      by_cases hs : s = student_id <;> simp [store_recommendations, lastMatch, hs]
    | cons rec rest =>
      exact foldl_upsert_apply now student_id (rec :: rest) db s j

/-- Embeds `mark_recommendation_viewed` (lines 572-587): set `is_viewed` of
the matching row, report whether a row matched. -/
def mark_recommendation_viewed (db : RecDB) (student_id job_id : ℤ) : Bool × RecDB :=
  ((db (student_id, job_id)).isSome,
   fun k =>
     if k = (student_id, job_id) then (db k).map (fun row => { row with is_viewed := true })
     else db k)

/-- Embeds `mark_recommendation_applied` (lines 589-604). -/
def mark_recommendation_applied (db : RecDB) (student_id job_id : ℤ) : Bool × RecDB :=
  ((db (student_id, job_id)).isSome,
   fun k =>
     if k = (student_id, job_id) then (db k).map (fun row => { row with is_applied := true })
     else db k)

/-- C10: each marking operation returns whether a matching row exists,
rewrites only the `is_viewed` (resp. `is_applied`) field of the row at
`(student_id, job_id)`, leaves every other key untouched, and is idempotent:
a repeated call returns the same flag and leaves the table unchanged. -/
theorem C10_mark_viewed_applied_frame (db : RecDB) (sid jid : ℤ) :
    (mark_recommendation_viewed db sid jid).1 = (db (sid, jid)).isSome ∧
    (∀ k, k ≠ (sid, jid) → (mark_recommendation_viewed db sid jid).2 k = db k) ∧
    (mark_recommendation_viewed db sid jid).2 (sid, jid) =
      (db (sid, jid)).map (fun row => { row with is_viewed := true }) ∧
    (mark_recommendation_viewed (mark_recommendation_viewed db sid jid).2 sid jid).1 =
      (mark_recommendation_viewed db sid jid).1 ∧
    (mark_recommendation_viewed (mark_recommendation_viewed db sid jid).2 sid jid).2 =
      (mark_recommendation_viewed db sid jid).2 ∧
    (mark_recommendation_applied db sid jid).1 = (db (sid, jid)).isSome ∧
    (∀ k, k ≠ (sid, jid) → (mark_recommendation_applied db sid jid).2 k = db k) ∧
    (mark_recommendation_applied db sid jid).2 (sid, jid) =
      (db (sid, jid)).map (fun row => { row with is_applied := true }) ∧
    (mark_recommendation_applied (mark_recommendation_applied db sid jid).2 sid jid).1 =
      (mark_recommendation_applied db sid jid).1 ∧
    (mark_recommendation_applied (mark_recommendation_applied db sid jid).2 sid jid).2 =
      (mark_recommendation_applied db sid jid).2 := by
  refine ⟨rfl, fun k hk => ?_, ?_, ?_, ?_, rfl, fun k hk => ?_, ?_, ?_, ?_⟩
  · simp [mark_recommendation_viewed, hk]
  · simp [mark_recommendation_viewed]
  · simp [mark_recommendation_viewed]
  · funext k
    simp only [mark_recommendation_viewed]
    by_cases hk : k = (sid, jid)
    · rw [if_pos hk, if_pos hk, Option.map_map]
      cases db k <;> rfl
    · rw [if_neg hk, if_neg hk]
  · simp [mark_recommendation_applied, hk]
  · simp [mark_recommendation_applied]
  · simp [mark_recommendation_applied]
  · funext k
    simp only [mark_recommendation_applied]
    by_cases hk : k = (sid, jid)
    · rw [if_pos hk, if_pos hk, Option.map_map]
      cases db k <;> rfl
    · rw [if_neg hk, if_neg hk]

end Matching
